import Mathlib

/-!
Verification of the goclient HTTP client library (github.com/indalyadav56/goclient).

The development shallowly embeds the request lifecycle engine of the library:
the single-use request builder/executor (`request`), the client state, the
batch executor (`batchRequest.Execute`) and the worker pool
(`requestPool.Submit`/`Wait`).  External collaborators (the HTTP transport,
`encoding/json`, `net/url` parsing/rendering) are modelled as parameters
bundled in a `Collab` structure, exactly the narrow interfaces the library
consumes them through.  Everything that is the repository's own logic —
header merging, auth application, body serialization policy, the status-code
branch, the executed-once flag, batch fan-out/fan-in, pool submit/wait — is
translated directly from the source.
-/

namespace GoClient

/-- Go `[]byte`. -/
abbrev Bytes := List UInt8

/-- The UTF-8 encoding of one character (RFC 3629). -/
def utf8Char (c : Char) : Bytes :=
  let n := c.toNat
  if n < 128 then [UInt8.ofNat n]
  else if n < 2048 then [UInt8.ofNat (192 + n / 64), UInt8.ofNat (128 + n % 64)]
  else if n < 65536 then
    [UInt8.ofNat (224 + n / 4096), UInt8.ofNat (128 + n / 64 % 64),
     UInt8.ofNat (128 + n % 64)]
  else
    [UInt8.ofNat (240 + n / 262144), UInt8.ofNat (128 + n / 4096 % 64),
     UInt8.ofNat (128 + n / 64 % 64), UInt8.ofNat (128 + n % 64)]

/-- Go's `[]byte(s)` conversion: the UTF-8 encoding of a string. -/
def strToBytes (s : String) : Bytes := (s.data.map utf8Char).flatten

/-- A Go `map[string]string`, modelled as an association list whose list
order stands in for iteration order; keys are unique by construction via
`goMapSet`. -/
abbrev GoMap := List (String × String)

/-- Go map update `m[k] = v`: replace the binding if the key is present,
otherwise append it. -/
def goMapSet : GoMap → String → String → GoMap
  | [], k, v => [(k, v)]
  | (k0, v0) :: rest, k, v =>
    if k0 = k then (k, v) :: rest else (k0, v0) :: goMapSet rest k v

/-- Go map lookup `m[k]`. -/
def goMapGet : GoMap → String → Option String
  | [], _ => none
  | (k0, v0) :: rest, k => if k0 = k then some v0 else goMapGet rest k

/-- Fold a list of writes into a map with `goMapSet`, earlier entries
first. -/
def foldSet (m : GoMap) (l : GoMap) : GoMap :=
  l.foldl (fun acc kv => goMapSet acc kv.1 kv.2) m

/-- The value of the last write with key `k` in a list of writes
(later entries win). -/
def lookupLast : GoMap → String → Option String
  | [], _ => none
  | (k0, v0) :: rest, k =>
    match lookupLast rest k with
    | some v => some v
    | none => if k0 = k then some v0 else none

/-- `net/textproto`'s token-byte test (`validHeaderFieldByte`): digits,
letters, and the RFC 7230 token specials. -/
def validHeaderFieldChar (c : Char) : Bool :=
  let n := c.toNat
  (48 ≤ n && n ≤ 57) || (97 ≤ n && n ≤ 122) || (65 ≤ n && n ≤ 90) ||
  n == 33 || n == 35 || n == 36 || n == 37 || n == 38 || n == 39 ||
  n == 42 || n == 43 || n == 45 || n == 46 || n == 94 || n == 95 ||
  n == 96 || n == 124 || n == 126

/-- The canonicalization loop of `textproto.CanonicalMIMEHeaderKey`:
uppercase a letter at the start or after a hyphen, lowercase other letters.
Character code 45 is the hyphen, 32 the upper/lower offset. -/
def canonChars : Bool → List Char → List Char
  | _, [] => []
  | upper, c :: rest =>
    let n := c.toNat
    let c2 := if upper && 97 ≤ n && n ≤ 122 then Char.ofNat (n - 32)
      else if !upper && 65 ≤ n && n ≤ 90 then Char.ofNat (n + 32)
      else c
    c2 :: canonChars (c2.toNat == 45) rest

/-- `textproto.CanonicalMIMEHeaderKey`: canonicalize if every byte is a
valid header-field byte, otherwise return the key unchanged. -/
def canonicalMIMEHeaderKey (s : String) : String :=
  if s.toList.all validHeaderFieldChar then ⟨canonChars true s.toList⟩ else s

/-- `http.Header.Set`: store under the canonical key, replacing any
previous value. -/
def headerSet (h : GoMap) (k v : String) : GoMap :=
  goMapSet h (canonicalMIMEHeaderKey k) v

/-- `http.Header.Get`: look up the canonical key. -/
def headerGet (h : GoMap) (k : String) : Option String :=
  goMapGet h (canonicalMIMEHeaderKey k)

/-- The standard base64 alphabet, by 6-bit index. -/
def base64Char (n : Nat) : Char :=
  "ABCDEFGHIJKLMNOPQRSTUVWXYZabcdefghijklmnopqrstuvwxyz0123456789+/".toList.getD n 'A'

/-- RFC 4648 base64 encoding, as used by `http.Request.SetBasicAuth`. -/
def base64Encode : Bytes → String
  | [] => ""
  | [b1] =>
    let n := b1.toNat * 65536
    ⟨[base64Char (n / 262144 % 64), base64Char (n / 4096 % 64)]⟩ ++ "=="
  | [b1, b2] =>
    let n := b1.toNat * 65536 + b2.toNat * 256
    ⟨[base64Char (n / 262144 % 64), base64Char (n / 4096 % 64),
      base64Char (n / 64 % 64)]⟩ ++ "="
  | b1 :: b2 :: b3 :: rest =>
    let n := b1.toNat * 65536 + b2.toNat * 256 + b3.toNat
    (⟨[base64Char (n / 262144 % 64), base64Char (n / 4096 % 64),
       base64Char (n / 64 % 64), base64Char (n % 64)]⟩ : String) ++ base64Encode rest

/-- The header value produced by `http.Request.SetBasicAuth`:
`"Basic " + base64(username + ":" + password)`. -/
def basicAuthValue (username password : String) : String :=
  "Basic " ++ base64Encode (strToBytes (username ++ ":" ++ password))

/-- The `Response` struct: status code, header mapping, raw body bytes. -/
structure Response where
  statusCode : Nat
  headers : GoMap
  body : Bytes
deriving DecidableEq, Repr

/-- The `RequestError` struct.  Its `Err` field (an `error` built with
`fmt.Errorf`) is modelled by its message string `errMsg`. -/
structure RequestError where
  statusCode : Nat
  url : String
  method : String
  response : Bytes
  errMsg : String
deriving DecidableEq, Repr

/-- `RequestError.Error()`. -/
def RequestError.Error (e : RequestError) : String :=
  "request failed: method=" ++ e.method ++ ", url=" ++ e.url ++
    ", status=" ++ toString e.statusCode ++ ", error=" ++ e.errMsg

/-- A Go `error` value as produced by the library: either a typed
`*RequestError` or an `fmt.Errorf`-wrapped error, modelled by its
message. -/
inductive GoError where
  | reqError (e : RequestError)
  | errorf (msg : String)
deriving DecidableEq, Repr

/-- The dynamic value handed to `SetBody` (`body interface{}`): raw bytes, a
string, an `io.Reader` (whose full drained content, or read error, is the
`Except`), or an arbitrary structured value pending JSON serialization,
modelled by an opaque token. -/
inductive BodyVal where
  | bytes (b : Bytes)
  | str (s : String)
  | reader (contents : Except String Bytes)
  | structured (v : String)

/-- The client's embedded basic-auth credential pair. -/
structure BasicAuth where
  username : String
  password : String
deriving DecidableEq, Repr

/-- The `client` struct state read during request execution: base URL,
global headers and the auth fields.  The transport (`httpClient`) and the
object pool are modelled separately (`Collab`, value-passing). -/
structure ClientState where
  baseURL : String
  globalHeaders : GoMap
  bearerToken : String
  basicAuth : BasicAuth
deriving DecidableEq, Repr

/-- The `request` struct.  The success/error handlers are `Bool` flags
(registered or not); their invocations are tracked by the event log.
`result` is the optional result-shape destination (never set through the
public `RequestBuilder` interface), `errorType` the `SetError` destination.
`ctxErr` models `r.ctx.Err()` at transport time. -/
structure Request where
  client : ClientState
  method : String
  endpoint : String
  ctxErr : Option String
  headers : GoMap
  body : Option BodyVal
  queryParams : GoMap
  successHandler : Bool
  errorHandler : Bool
  errorType : Bool
  result : Bool
  executed : Bool
  response : Option Response
  err : Option GoError

/-- A parsed URL as far as execution inspects it: its rendered base and the
query mapping (`parsedURL.Query()`). -/
structure ParsedURL where
  base : String
  query : GoMap
deriving DecidableEq, Repr

/-- The request envelope handed to the transport (`*http.Request` at the
`httpClient.Do` call site): method, final URL, the header map after
defaults/global/per-request merging and auth, and the prepared body. -/
structure HttpReq where
  method : String
  url : String
  headers : GoMap
  body : Option Bytes
deriving DecidableEq, Repr

/-- Observable events of one request lifecycle: the network round trip and
callback invocations. -/
inductive Ev where
  | roundTrip (req : HttpReq)
  | successCb (resp : Response)
  | errorCb (e : RequestError)
deriving DecidableEq, Repr

/-- Outcome of `httpClient.Do` plus the subsequent `io.ReadAll` of the
response body: a transport-level error, or a status code, response headers
and the body-read result. -/
inductive DoResult where
  | ok (status : Nat) (headers : GoMap) (bodyRead : Except String Bytes)
  | err (msg : String)

/-- The external collaborators, as consumed through their narrow
interfaces: `url.JoinPath`, `url.Parse` (its outcome), URL rendering with
the re-encoded query, `http.NewRequestWithContext` validation,
`json.Marshal` on structured bodies, `json.Unmarshal` into the `SetError`
destination (`.ok` carries the `%+v` rendering of the decoded value),
`json.Unmarshal` into the result destination, and the transport round
trip. -/
structure Collab where
  joinPath : String → String → Except String String
  parseURL : String → Except String ParsedURL
  renderURL : ParsedURL → String
  newRequestErr : String → String → Option String
  marshal : String → Except String Bytes
  unmarshalErrDest : Bytes → Except String String
  unmarshalResDest : Bytes → Except String Unit
  transport : HttpReq → DoResult

/-- `client.resolveURL`: the endpoint verbatim when the base URL is empty,
otherwise `url.JoinPath(baseURL, endpoint)` with its error wrapped. -/
def resolveURL (collab : Collab) (c : ClientState) (endpoint : String) :
    Except String String :=
  if c.baseURL = "" then .ok endpoint
  else
    match collab.joinPath c.baseURL endpoint with
    | .ok u => .ok u
    | .error e => .error ("failed to resolve URL: " ++ e)

/-- `request.prepareBody`: bytes pass through, strings are UTF-8 encoded,
an `io.Reader` is drained fully, anything else is `json.Marshal`ed. -/
def prepareBody (collab : Collab) (r : Request) : Except String (Option Bytes) :=
  match r.body with
  | none => .ok none
  | some (.bytes b) => .ok (some b)
  | some (.str s) => .ok (some (strToBytes s))
  | some (.reader c) =>
    match c with
    | .ok b => .ok (some b)
    | .error e => .error e
  | some (.structured v) =>
    match collab.marshal v with
    | .ok b => .ok (some b)
    | .error e => .error e

/-- `request.addHeaders`: built-in defaults, then the client's global
headers, then the per-request headers, each written with
`http.Header.Set`. -/
def addHeaders (r : Request) : GoMap :=
  let h := headerSet [] "Content-Type" "application/json"
  let h := headerSet h "Accept" "application/json"
  let h := r.client.globalHeaders.foldl (fun m kv => headerSet m kv.1 kv.2) h
  r.headers.foldl (fun m kv => headerSet m kv.1 kv.2) h

/-- The authentication block of `request.execute`: two independent `if`s,
first the bearer header, then `SetBasicAuth` — the latter also writes the
`Authorization` key. -/
def applyAuth (c : ClientState) (h : GoMap) : GoMap :=
  let h1 := if c.bearerToken ≠ "" then
      headerSet h "Authorization" ("Bearer " ++ c.bearerToken)
    else h
  if c.basicAuth.username ≠ "" ∧ c.basicAuth.password ≠ "" then
    headerSet h1 "Authorization" (basicAuthValue c.basicAuth.username c.basicAuth.password)
  else h1

/-- `http.NewRequestWithContext` followed by the header-application steps:
validation may fail, otherwise the envelope is assembled. -/
def newRequest (collab : Collab) (method finalURL : String) (hdrs : GoMap)
    (bodyBytes : Option Bytes) : Except GoError HttpReq :=
  match collab.newRequestErr method finalURL with
  | some e => .error (.errorf ("failed to create request: " ++ e))
  | none => .ok { method := method, url := finalURL, headers := hdrs, body := bodyBytes }

/-- Steps 1–6 of `request.execute`: URL resolution, parsing, query-param
merging (`q.Set` per key), body preparation, request construction, header
merging and auth.  Produces either the envelope for the transport or the
error `execute` stores. -/
def buildHttpReq (collab : Collab) (r : Request) : Except GoError HttpReq :=
  match resolveURL collab r.client r.endpoint with
  | .error e => .error (.errorf ("failed to resolve URL: " ++ e))
  | .ok resolved =>
  match collab.parseURL resolved with
  | .error e => .error (.errorf ("invalid URL: " ++ e))
  | .ok pu0 =>
  let pu := if r.queryParams.length > 0 then
      { pu0 with query := r.queryParams.foldl (fun q kv => goMapSet q kv.1 kv.2) pu0.query }
    else pu0
  match (if r.body.isSome then prepareBody collab r else .ok none) with
  | .error e => .error (.errorf ("failed to prepare request body: " ++ e))
  | .ok bodyBytes =>
    newRequest collab r.method (collab.renderURL pu)
      (applyAuth r.client (addHeaders r)) bodyBytes

/-- `request.execute`: a no-op when already executed; otherwise build the
envelope, perform the round trip, read the body, and settle the outcome.
On status ≥ 400 a `RequestError` is built and, when an error destination is
set, the failure body is decoded into it, enriching the message only when
the decode succeeds.  Returns the updated request and the lifecycle
events. -/
def execute (collab : Collab) (r : Request) : Request × List Ev :=
  if r.executed then (r, [])
  else
    match buildHttpReq collab r with
    | .error e => ({ r with err := some e, executed := true }, [])
    | .ok hreq =>
      let ev := [Ev.roundTrip hreq]
      match collab.transport hreq with
      | .err msg =>
        let e := match r.ctxErr with
          | some ce => GoError.errorf ("request canceled or timed out: " ++ ce)
          | none => GoError.errorf ("request failed: " ++ msg)
        ({ r with err := some e, executed := true }, ev)
      | .ok status respHeaders bodyRead =>
        match bodyRead with
        | .error e =>
          ({ r with err := some (.errorf ("error reading response body: " ++ e)),
                    executed := true }, ev)
        | .ok body =>
          if 400 ≤ status then
            let baseMsg := "request failed with status code " ++ toString status
            let msg := if r.errorType then
                match collab.unmarshalErrDest body with
                | .ok v => baseMsg ++ ": " ++ v
                | .error _ => baseMsg
              else baseMsg
            ({ r with
               err := some (.reqError
                 { statusCode := status, url := hreq.url, method := hreq.method,
                   response := body, errMsg := msg }),
               executed := true }, ev)
          else
            let resp : Response :=
              { statusCode := status, headers := respHeaders, body := body }
            let r1 := { r with response := some resp }
            if r1.result then
              match collab.unmarshalResDest body with
              | .error e =>
                ({ r1 with err := some (.errorf ("failed to unmarshal response: " ++ e)),
                           executed := true }, ev)
              | .ok _ => ({ r1 with executed := true }, ev)
            else ({ r1 with executed := true }, ev)

/-- `request.Result`: execute if not yet executed, return the object to the
pool, and hand back the cached `(response, err)` pair.  The triple is
(returned pair, request state after the call, events). -/
def Request.Result (collab : Collab) (r : Request) :
    (Option Response × Option GoError) × Request × List Ev :=
  if r.executed then ((r.response, r.err), r, [])
  else
    let (r1, ev) := execute collab r
    ((r1.response, r1.err), r1, ev)

/-- `request.Into`: run `Result`; on a `RequestError` with an error
destination set, try to decode the failure body and wrap the error with the
decoded detail on success; on success decode into the caller's
destination (`collab.unmarshalResDest` stands for that decode). -/
def Request.Into (collab : Collab) (r : Request) :
    Option GoError × Request × List Ev :=
  let (out, r1, ev) := Request.Result collab r
  match out.2 with
  | some e =>
    match e, r1.errorType with
    | .reqError re, true =>
      (match collab.unmarshalErrDest re.response with
       | .ok v => (some (.errorf (re.Error ++ ": " ++ v)), r1, ev)
       | .error _ => (some e, r1, ev))
    | _, _ => (some e, r1, ev)
  | none =>
    match out.1 with
    | some resp =>
      (match collab.unmarshalResDest resp.body with
       | .ok _ => (none, r1, ev)
       | .error msg => (some (.errorf msg), r1, ev))
    | none => (none, r1, ev)

/-- `request.SetHeader`. -/
def Request.SetHeader (r : Request) (k v : String) : Request :=
  { r with headers := goMapSet r.headers k v }

/-- `request.SetHeaders`: merge a map of headers (iterated in list
order). -/
def Request.SetHeaders (r : Request) (hs : List (String × String)) : Request :=
  { r with headers := hs.foldl (fun m kv => goMapSet m kv.1 kv.2) r.headers }

/-- `request.SetBody`: store the raw value; no serialization happens
here. -/
def Request.SetBody (r : Request) (b : BodyVal) : Request :=
  { r with body := some b }

/-- `request.SetQueryParam`. -/
def Request.SetQueryParam (r : Request) (k v : String) : Request :=
  { r with queryParams := goMapSet r.queryParams k v }

/-- `request.SetQueryParams`. -/
def Request.SetQueryParams (r : Request) (ps : List (String × String)) : Request :=
  { r with queryParams := ps.foldl (fun m kv => goMapSet m kv.1 kv.2) r.queryParams }

/-- `request.SetError`: record that an error destination was supplied. -/
def Request.SetError (r : Request) : Request :=
  { r with errorType := true }

/-- `request.OnSuccess`: store the handler; call it immediately (once) when
the request has already executed successfully. -/
def Request.OnSuccess (r : Request) : Request × List Ev :=
  let r1 := { r with successHandler := true }
  match r1.executed, r1.err, r1.response with
  | true, none, some resp => (r1, [.successCb resp])
  | _, _, _ => (r1, [])

/-- `request.OnError`: store the handler; call it immediately (once) when
the request has already executed and failed with a `*RequestError`. -/
def Request.OnError (r : Request) : Request × List Ev :=
  let r1 := { r with errorHandler := true }
  match r1.executed, r1.err with
  | true, some (.reqError e) => (r1, [.errorCb e])
  | _, _ => (r1, [])

/-- `request.reset`: clear every mutable field. -/
def Request.reset (r : Request) : Request :=
  { r with method := "", endpoint := "", ctxErr := none, headers := [],
           body := none, queryParams := [], successHandler := false,
           errorHandler := false, errorType := false, result := false,
           executed := false, response := none, err := none }

/-- `client.GetWithContext`: take a request from the pool, reset it, and
bind method, endpoint and context. -/
def GetWithContext (c : ClientState) (pooled : Request) (ctxErr : Option String)
    (endpoint : String) : Request :=
  let r := Request.reset { pooled with client := c }
  { r with method := "GET", endpoint := endpoint, ctxErr := ctxErr }

/-- A blank request bound to a client, as produced by the pool's `New`
followed by the factory path. -/
def freshRequest (c : ClientState) (endpoint : String) : Request :=
  GetWithContext c
    { client := c, method := "", endpoint := "", ctxErr := none, headers := [],
      body := none, queryParams := [], successHandler := false,
      errorHandler := false, errorType := false, result := false,
      executed := false, response := none, err := none }
    none endpoint

/-- The pool's `Result` struct. -/
structure PoolResult where
  response : Option Response
  error : Option GoError
deriving DecidableEq, Repr

/-- The `requestPool` struct: worker count, the shared (unused by `Submit`)
job channel contents, and whether the shutdown channel has been closed. -/
structure RequestPool where
  workers : Nat
  jobs : List Request
  shutdownClosed : Bool

/-- `client.Pool`: nonpositive worker counts default to 10; the shutdown
channel starts open. -/
def Pool (workers : Int) : RequestPool :=
  { workers := (if workers ≤ 0 then 10 else workers).toNat,
    jobs := [], shutdownClosed := false }

/-- The single-slot channel `Submit` returns: the values delivered on it,
and whether it was closed. -/
structure SubmitChannel where
  values : List PoolResult
  closed : Bool
deriving DecidableEq, Repr

/-- `requestPool.Submit`: spawn an independent execution of the request,
deliver its single `Result` on a fresh one-slot channel, close that
channel.  The pool's own job channel and workers are untouched. -/
def RequestPool.Submit (collab : Collab) (p : RequestPool) (r : Request) :
    SubmitChannel × RequestPool :=
  let out := (Request.Result collab r).1
  ({ values := [{ response := out.1, error := out.2 }], closed := true }, p)

/-- `requestPool.Wait`: `close(p.shutdown)` then join the workers.  Closing
an already-closed Go channel panics; the panic is modelled as `none`. -/
def RequestPool.Wait (p : RequestPool) : Option RequestPool :=
  if p.shutdownClosed then none
  else some { p with shutdownClosed := true }

/-- `batchRequest.Execute`: one goroutine per added request, each running
`Result` and appending its `(response, err)` pair to the output slices
under the shared mutex; the wait group joins them all.  `order` is the
completion order of the goroutines — the appends happen in that
(nondeterministic) order, one paired append per goroutine. -/
def batchExecute (collab : Collab) (reqs : List Request)
    (order : List (Fin reqs.length)) :
    List (Option Response) × List (Option GoError) :=
  (order.map fun i => (Request.Result collab (reqs.get i)).1.1,
   order.map fun i => (Request.Result collab (reqs.get i)).1.2)

/-- The outgoing envelope of an execution, read off the event log: `some q`
exactly when the execution reached the transport. -/
def outgoingReq (collab : Collab) (r : Request) : Option HttpReq :=
  match (execute collab r).2 with
  | [Ev.roundTrip q] => some q
  | _ => none

/-- A request in the blank state the factories hand out: not yet executed,
no cached outcome, no result destination. -/
def isFresh (r : Request) : Prop :=
  r.executed = false ∧ r.response = none ∧ r.err = none ∧ r.result = false

/-- Exactly one outcome: a present response with no error, or an absent
response with an error. -/
def xorOutcome (resp : Option Response) (err : Option GoError) : Prop :=
  (resp.isSome = true ∧ err = none) ∨ (resp = none ∧ err.isSome = true)

/-- One call in a sequence of `SetHeader`/`SetHeaders` invocations. -/
inductive HOp where
  | setHeader (k v : String)
  | setHeaders (hs : GoMap)

/-- Apply a sequence of header-builder calls to a request. -/
def applyHOps (r : Request) (ops : List HOp) : Request :=
  ops.foldl (fun r op =>
    match op with
    | .setHeader k v => r.SetHeader k v
    | .setHeaders hs => r.SetHeaders hs) r

/-- The same sequence of calls flattened into individual writes, in call
order. -/
def flattenHOps (ops : List HOp) : GoMap :=
  (ops.map fun op =>
    match op with
    | .setHeader k v => [(k, v)]
    | .setHeaders hs => hs).flatten

/-- The built-in default headers, lowest layer. -/
def defaultHeaderPairs : GoMap :=
  [("Content-Type", "application/json"), ("Accept", "application/json")]

/-- Modelled from the spec's words for C7: the serialization policy —
bytes unchanged, the UTF-8 bytes of a string, the fully drained stream
content, the JSON serialization of anything else. -/
def specBodyPolicy (collab : Collab) (v : BodyVal) : Option Bytes :=
  match v with
  | .bytes b => some b
  | .str s => some (strToBytes s)
  | .reader c => c.toOption
  | .structured x => (collab.marshal x).toOption

/-- Modelled from the spec's words for C5: the layered header mapping —
defaults overlaid by the client's global headers overlaid by the
per-request writes, the later layer and the later same-key write
winning. -/
def layeredGet (defaults glob perReq : GoMap) (k : String) : Option String :=
  match lookupLast perReq k with
  | some v => some v
  | none =>
    match lookupLast glob k with
    | some v => some v
    | none => lookupLast defaults k

/-- A client with no configuration, for concrete test executions. -/
def emptyClient : ClientState :=
  { baseURL := "", globalHeaders := [], bearerToken := "",
    basicAuth := { username := "", password := "" } }

/-- A concrete collaborator bundle for test executions: identity-style URL
handling, an always-200 transport, and an error-destination decode that
fails. -/
def idCollab : Collab :=
  { joinPath := fun b e => .ok (b ++ e),
    parseURL := fun u => .ok { base := u, query := [] },
    renderURL := fun pu => pu.base,
    newRequestErr := fun _ _ => none,
    marshal := fun v => .ok (strToBytes v),
    unmarshalErrDest := fun _ => .error "decode error",
    unmarshalResDest := fun _ => .ok (),
    transport := fun _ => .ok 200 [] (.ok []) }

/-- A transport answering 200 on the URL `"ok"` and 500 elsewhere. -/
def c1Collab : Collab :=
  { idCollab with transport := fun q =>
      if q.url = "ok" then .ok 200 [] (.ok []) else .ok 500 [] (.ok []) }

/-- Batch input: request 0 will succeed. -/
def c1Req0 : Request := freshRequest emptyClient "ok"

/-- Batch input: request 1 will fail with status 500. -/
def c1Req1 : Request := freshRequest emptyClient "bad"

/-- The two-request batch for the batch-ordering analysis. -/
def c1Reqs : List Request := [c1Req0, c1Req1]

/-- A completion order in which the second added request finishes first. -/
def c1Order : List (Fin c1Reqs.length) := [⟨1, by decide⟩, ⟨0, by decide⟩]

/-- A client with both a bearer token and basic-auth credentials
configured. -/
def c2Client : ClientState :=
  { baseURL := "", globalHeaders := [], bearerToken := "tok",
    basicAuth := { username := "u", password := "p" } }

/-- A request on the doubly-authenticated client. -/
def c2Req : Request := freshRequest c2Client "x"

/-- A transport answering 404 with a failure body. -/
def c6Collab : Collab :=
  { idCollab with transport := fun _ => .ok 404 [] (.ok (strToBytes "notfound")) }

/-- A request with an error destination set, hitting the 404 transport. -/
def c6Req : Request := Request.SetError (freshRequest emptyClient "e")

/-- The envelope `buildHttpReq` produces for `SetBody(.str "hi")` on a
fresh request against `idCollab`. -/
def c7Envelope : HttpReq :=
  { method := "GET", url := "u",
    headers := [("Content-Type", "application/json"), ("Accept", "application/json")],
    body := some (strToBytes "hi") }

/-- The envelope the doubly-authenticated request puts on the wire. -/
def c2Envelope : HttpReq :=
  { method := "GET", url := "x",
    headers := [("Content-Type", "application/json"), ("Accept", "application/json"),
                ("Authorization", "Basic dTpw")],
    body := none }

/-- The envelope of the 404 execution. -/
def c6Envelope : HttpReq :=
  { method := "GET", url := "e",
    headers := [("Content-Type", "application/json"), ("Accept", "application/json")],
    body := none }

/-- A client carrying one global header, for the header-layering
witness. -/
def c5Client : ClientState :=
  { emptyClient with globalHeaders := [("X-Global", "g")] }

/-- The header-builder call sequence of the layering witness. -/
def c5Ops : List HOp :=
  [.setHeader "Accept" "text", .setHeaders [("X-Req", "1"), ("Accept", "text2")]]

/-- Every key of the mapping is its own canonical MIME header key. -/
abbrev allCanon (l : GoMap) : Prop :=
  ∀ kv ∈ l, canonicalMIMEHeaderKey kv.1 = kv.1

theorem goMapGet_goMapSet (m : GoMap) (k v k' : String) :
    goMapGet (goMapSet m k v) k' = if k = k' then some v else goMapGet m k' := by
  induction m with
  | nil => simp [goMapSet, goMapGet]
  | cons kv rest ih =>
    obtain ⟨k0, v0⟩ := kv
    by_cases h0 : k0 = k <;> by_cases h1 : k = k' <;>
      simp_all [goMapSet, goMapGet]

theorem goMapGet_foldSet (l : GoMap) (m : GoMap) (k : String) :
    goMapGet (foldSet m l) k =
      match lookupLast l k with
      | some v => some v
      | none => goMapGet m k := by
  induction l generalizing m with
  | nil => simp [foldSet, lookupLast, List.foldl]
  | cons kv rest ih =>
    obtain ⟨k0, v0⟩ := kv
    show goMapGet (foldSet (goMapSet m k0 v0) rest) k = _
    rw [ih]
    cases h : lookupLast rest k with
    | some v => simp [lookupLast, h]
    | none =>
      simp only [lookupLast, h, goMapGet_goMapSet]
      by_cases hk : k0 = k <;> simp [hk]

theorem lookupLast_eq_none (m : GoMap) (k : String)
    (h : ∀ kv ∈ m, kv.1 ≠ k) : lookupLast m k = none := by
  induction m with
  | nil => rfl
  | cons kv rest ih =>
    obtain ⟨k0, v0⟩ := kv
    have h0 : k0 ≠ k := h (k0, v0) (by simp)
    simp only [lookupLast, ih fun kv hkv => h kv (by simp [hkv]), h0, if_false]

theorem goMapGet_eq_none (m : GoMap) (k : String)
    (h : ∀ kv ∈ m, kv.1 ≠ k) : goMapGet m k = none := by
  induction m with
  | nil => rfl
  | cons kv rest ih =>
    obtain ⟨k0, v0⟩ := kv
    have h0 : k0 ≠ k := h (k0, v0) (by simp)
    simp only [goMapGet, h0, if_false]
    exact ih fun kv hkv => h kv (by simp [hkv])

theorem lookupLast_eq_goMapGet (m : GoMap) (k : String)
    (h : (m.map Prod.fst).Nodup) : lookupLast m k = goMapGet m k := by
  induction m with
  | nil => rfl
  | cons kv rest ih =>
    obtain ⟨k0, v0⟩ := kv
    simp only [List.map_cons, List.nodup_cons] at h
    obtain ⟨hnot, hrest⟩ := h
    by_cases h0 : k0 = k
    · subst h0
      have : lookupLast rest k0 = none := by
        apply lookupLast_eq_none
        intro kv hkv hk
        exact hnot (hk ▸ List.mem_map_of_mem Prod.fst hkv)
      simp [lookupLast, goMapGet, this]
    · simp only [lookupLast, goMapGet, h0, if_false, ih hrest]
      cases hg : goMapGet rest k <;> simp

theorem mem_keys_goMapSet (m : GoMap) (k v a : String)
    (h : a ∈ (goMapSet m k v).map Prod.fst) :
    a = k ∨ a ∈ m.map Prod.fst := by
  induction m with
  | nil => simpa [goMapSet] using h
  | cons kv rest ih =>
    obtain ⟨k0, v0⟩ := kv
    simp only [goMapSet] at h
    split at h <;> simp only [List.map_cons, List.mem_cons] at h ⊢
    · rcases h with h | h
      · exact Or.inl h
      · exact Or.inr (Or.inr h)
    · rcases h with h | h
      · exact Or.inr (Or.inl h)
      · rcases ih h with h | h
        · exact Or.inl h
        · exact Or.inr (Or.inr h)

theorem nodup_keys_goMapSet (m : GoMap) (k v : String)
    (h : (m.map Prod.fst).Nodup) : ((goMapSet m k v).map Prod.fst).Nodup := by
  induction m with
  | nil => simp [goMapSet]
  | cons kv rest ih =>
    obtain ⟨k0, v0⟩ := kv
    simp only [List.map_cons, List.nodup_cons] at h
    obtain ⟨hnot, hrest⟩ := h
    simp only [goMapSet]
    split
    · rename_i h0
      simp only [List.map_cons, List.nodup_cons]
      exact ⟨by rw [← h0]; exact hnot, hrest⟩
    · rename_i h0
      simp only [List.map_cons, List.nodup_cons]
      refine ⟨fun hmem => ?_, ih hrest⟩
      rcases mem_keys_goMapSet rest k v k0 hmem with h | h
      · exact h0 h
      · exact hnot h

theorem nodup_keys_foldSet (l : GoMap) (m : GoMap)
    (h : (m.map Prod.fst).Nodup) : ((foldSet m l).map Prod.fst).Nodup := by
  induction l generalizing m with
  | nil => exact h
  | cons kv rest ih =>
    exact ih (goMapSet m kv.1 kv.2) (nodup_keys_goMapSet m kv.1 kv.2 h)

theorem headerSet_canon (m : GoMap) (k v : String)
    (h : canonicalMIMEHeaderKey k = k) : headerSet m k v = goMapSet m k v := by
  rw [headerSet, h]

theorem foldHeaderSet_canon (l : GoMap) (m : GoMap) (h : allCanon l) :
    l.foldl (fun acc kv => headerSet acc kv.1 kv.2) m = foldSet m l := by
  induction l generalizing m with
  | nil => rfl
  | cons kv rest ih =>
    show rest.foldl _ (headerSet m kv.1 kv.2) = foldSet (goMapSet m kv.1 kv.2) rest
    rw [headerSet_canon m kv.1 kv.2 (h kv (by simp))]
    exact ih (goMapSet m kv.1 kv.2) fun x hx => h x (by simp [hx])

theorem allCanon_goMapSet (m : GoMap) (k v : String) (hm : allCanon m)
    (hk : canonicalMIMEHeaderKey k = k) : allCanon (goMapSet m k v) := by
  intro kv hkv
  rcases mem_keys_goMapSet m k v kv.1 (List.mem_map_of_mem Prod.fst hkv) with h | h
  · rw [h, hk]
  · obtain ⟨kv', hkv', hfst⟩ := List.mem_map.mp h
    rw [← hfst]
    exact hm kv' hkv'

theorem allCanon_foldSet (l : GoMap) (m : GoMap) (hm : allCanon m)
    (hl : allCanon l) : allCanon (foldSet m l) := by
  induction l generalizing m with
  | nil => exact hm
  | cons kv rest ih =>
    exact ih (goMapSet m kv.1 kv.2)
      (allCanon_goMapSet m kv.1 kv.2 hm (hl kv (by simp)))
      (fun x hx => hl x (by simp [hx]))

theorem execute_executed (collab : Collab) (r : Request) :
    (execute collab r).1.executed = true := by
  unfold execute
  repeat' split
  all_goals try (cases hres : r.result)
  all_goals simp_all

theorem execute_events (collab : Collab) (r : Request) :
    (execute collab r).2 = [] ∨ ∃ q, (execute collab r).2 = [Ev.roundTrip q] := by
  unfold execute
  repeat' split
  all_goals try (cases hres : r.result)
  all_goals simp_all

theorem newRequest_ok (collab : Collab) (method finalURL : String)
    (hdrs : GoMap) (bodyBytes : Option Bytes) (q : HttpReq)
    (h : newRequest collab method finalURL hdrs bodyBytes = .ok q) :
    q = { method := method, url := finalURL, headers := hdrs, body := bodyBytes } := by
  unfold newRequest at h
  split at h <;> simp_all

theorem buildHttpReq_ok (collab : Collab) (r : Request) (q : HttpReq)
    (h : buildHttpReq collab r = .ok q) :
    q.method = r.method ∧ q.headers = applyAuth r.client (addHeaders r) ∧
      (if r.body.isSome then prepareBody collab r else Except.ok none) = .ok q.body := by
  unfold buildHttpReq at h
  repeat' split at h
  all_goals try exact Except.noConfusion h
  all_goals have h2 := newRequest_ok collab _ _ _ _ q h
  all_goals rw [h2]
  all_goals simp_all

theorem execute_events_eq (collab : Collab) (r : Request)
    (h : r.executed = false) :
    (execute collab r).2 = (match buildHttpReq collab r with
      | .error _ => []
      | .ok hreq => [Ev.roundTrip hreq]) := by
  unfold execute
  rw [if_neg (by simp [h])]
  rcases hb : buildHttpReq collab r with e | hreq
  · rfl
  · repeat' split
    all_goals try (cases hr : r.result)
    all_goals rfl

theorem outgoingReq_spec (collab : Collab) (r : Request) (q : HttpReq)
    (h : outgoingReq collab r = some q) :
    r.executed = false ∧ buildHttpReq collab r = .ok q := by
  unfold outgoingReq at h
  cases he : r.executed with
  | true => unfold execute at h; simp [he] at h
  | false =>
    rw [execute_events_eq collab r he] at h
    rcases hb : buildHttpReq collab r with e | hreq
    · rw [hb] at h; simp at h
    · rw [hb] at h
      simp at h
      simp_all

theorem result_xorOutcome (collab : Collab) (r : Request) (h : isFresh r) :
    xorOutcome (Request.Result collab r).1.1 (Request.Result collab r).1.2 := by
  obtain ⟨he, hresp, herr, hres⟩ := h
  unfold Request.Result
  rw [he]
  simp only [Bool.false_eq_true, if_false]
  unfold execute
  rw [he]
  simp only [Bool.false_eq_true, if_false]
  repeat' split
  all_goals simp_all [xorOutcome]

theorem applyHOps_fields (r : Request) (ops : List HOp) :
    (applyHOps r ops).headers = foldSet r.headers (flattenHOps ops) ∧
      (applyHOps r ops).client = r.client := by
  induction ops generalizing r with
  | nil => simp [applyHOps, flattenHOps, foldSet]
  | cons op rest ih =>
    cases op with
    | setHeader k v =>
      have h := ih (r.SetHeader k v)
      simpa [applyHOps, flattenHOps, foldSet, Request.SetHeader] using h
    | setHeaders hs =>
      have h := ih (r.SetHeaders hs)
      simpa [applyHOps, flattenHOps, foldSet, Request.SetHeaders,
        List.foldl_append] using h

theorem applyAuth_both (c : ClientState) (h : GoMap)
    (_hb : c.bearerToken ≠ "") (hu : c.basicAuth.username ≠ "")
    (hp : c.basicAuth.password ≠ "") :
    headerGet (applyAuth c h) "Authorization" =
      some (basicAuthValue c.basicAuth.username c.basicAuth.password) := by
  unfold applyAuth
  rw [if_pos ⟨hu, hp⟩]
  unfold headerSet headerGet
  rw [goMapGet_goMapSet]
  simp

/-- C3: calling `Result()` a second time after a first call performs no
second execution — no network round trip happens, the request state is
unchanged, and exactly the cached `(response, err)` pair of the first call
is returned. -/
theorem result_second_call_cached (collab : Collab) (r : Request) :
    (Request.Result collab (Request.Result collab r).2.1).1 =
        (Request.Result collab r).1 ∧
    (Request.Result collab (Request.Result collab r).2.1).2.1 =
        (Request.Result collab r).2.1 ∧
    (Request.Result collab (Request.Result collab r).2.1).2.2 = [] := by
  unfold Request.Result
  cases he : r.executed with
  | true => simp [he]
  | false =>
    have hex := execute_executed collab r
    simp [he, hex]

/-- C10: after `Wait()` has returned once, a second `Wait()` call closes
the already-closed shutdown channel, which panics (modelled as `none`):
the first call on a freshly created pool succeeds, the second never
does. -/
theorem pool_wait_twice_panics (w : Int) :
    (RequestPool.Wait (Pool w)).isSome = true ∧
    ((RequestPool.Wait (Pool w)).bind RequestPool.Wait) = none := by
  constructor <;> simp [Pool, RequestPool.Wait]

/-- C8: `Submit` delivers exactly one `Result` on the returned single-slot
channel and closes it; the pool (its job channel included) is untouched;
and for a pending request that succeeds the delivered result has no error
and a present response. -/
theorem submit_single_result (collab : Collab) (p : RequestPool) (r : Request)
    (hfresh : isFresh r)
    (hsucc : (Request.Result collab r).1.2 = none) :
    (RequestPool.Submit collab p r).1.values.length = 1 ∧
    (RequestPool.Submit collab p r).1.closed = true ∧
    (RequestPool.Submit collab p r).2 = p ∧
    ∀ res ∈ (RequestPool.Submit collab p r).1.values,
      res.error = none ∧ res.response.isSome = true := by
  refine ⟨rfl, rfl, rfl, ?_⟩
  intro res hres
  simp only [RequestPool.Submit, List.mem_singleton] at hres
  subst hres
  rcases result_xorOutcome collab r hfresh with ⟨h1, h2⟩ | ⟨h1, h2⟩
  · exact ⟨hsucc, h1⟩
  · rw [hsucc] at h2
    cases h2

/-- C8 witness: a concrete successful submission. -/
theorem submit_single_result_witness :
    (RequestPool.Submit idCollab (Pool 2) (freshRequest emptyClient "u")).1.values.length = 1 ∧
    (RequestPool.Submit idCollab (Pool 2) (freshRequest emptyClient "u")).1.closed = true ∧
    (RequestPool.Submit idCollab (Pool 2) (freshRequest emptyClient "u")).2 = Pool 2 ∧
    ∀ res ∈ (RequestPool.Submit idCollab (Pool 2) (freshRequest emptyClient "u")).1.values,
      res.error = none ∧ res.response.isSome = true :=
  submit_single_result idCollab (Pool 2) (freshRequest emptyClient "u")
    ⟨rfl, rfl, rfl, rfl⟩ (by decide)

/-- C9: the execution path (`Result`, hence `execute`) never invokes the
stored callbacks — its only events are round trips; a callback fires at
most once, exactly at registration, and exactly when the request has
already executed with a matching outcome (a response for `OnSuccess`, a
`RequestError` for `OnError`). -/
theorem callbacks_only_at_registration (collab : Collab) (r : Request) :
    (∀ e ∈ (Request.Result collab r).2.2, ∃ q, e = Ev.roundTrip q) ∧
    (Request.OnSuccess r).2.length ≤ 1 ∧
    ((Request.OnSuccess r).2 ≠ [] ↔
      (r.executed = true ∧ r.err = none ∧ r.response.isSome = true)) ∧
    (Request.OnError r).2.length ≤ 1 ∧
    ((Request.OnError r).2 ≠ [] ↔
      (r.executed = true ∧ ∃ e, r.err = some (GoError.reqError e))) := by
  refine ⟨?_, ?_, ?_, ?_, ?_⟩
  · unfold Request.Result
    cases he : r.executed with
    | true => simp [he]
    | false =>
      simp only [he, Bool.false_eq_true, if_false]
      rcases execute_events collab r with h | ⟨q, h⟩ <;> simp [h]
  · unfold Request.OnSuccess
    cases he : r.executed <;> cases herr : r.err <;> cases hresp : r.response <;> simp
  · unfold Request.OnSuccess
    cases he : r.executed <;> cases herr : r.err <;> cases hresp : r.response <;> simp
  · unfold Request.OnError
    cases he : r.executed <;> cases herr : r.err <;> try (rename_i ge; cases ge)
    all_goals simp
  · unfold Request.OnError
    cases he : r.executed <;> cases herr : r.err <;> try (rename_i ge; cases ge)
    all_goals simp

/-- C2 counterexample: on a client with both bearer token `"tok"` and
basic-auth credentials `("u", "p")`, the outgoing `Authorization` header is
`"Basic dTpw"` — not the bearer form the claim requires.  Both `if`s in the
auth block run; `SetBasicAuth` overwrites the bearer header. -/
theorem bearer_precedence_counterexample :
    (outgoingReq idCollab c2Req).map (fun q => headerGet q.headers "Authorization") =
      some (some "Basic dTpw") ∧
    ¬ ((outgoingReq idCollab c2Req).map (fun q => headerGet q.headers "Authorization") =
      some (some ("Bearer " ++ c2Client.bearerToken))) := by
  constructor
  · decide
  · decide

/-- C2 amended: when both a bearer token and basic-auth credentials are
configured, *basic* authentication wins — the outgoing `Authorization`
header is the basic-auth form, because `SetBasicAuth` runs after (and
overwrites) the bearer header. -/
theorem auth_basic_overrides_bearer (collab : Collab) (r : Request) (q : HttpReq)
    (hq : outgoingReq collab r = some q)
    (hb : r.client.bearerToken ≠ "")
    (hu : r.client.basicAuth.username ≠ "")
    (hp : r.client.basicAuth.password ≠ "") :
    headerGet q.headers "Authorization" =
      some (basicAuthValue r.client.basicAuth.username r.client.basicAuth.password) := by
  obtain ⟨-, hbuild⟩ := outgoingReq_spec collab r q hq
  obtain ⟨-, hhdrs, -⟩ := buildHttpReq_ok collab r q hbuild
  rw [hhdrs]
  exact applyAuth_both r.client (addHeaders r) hb hu hp

/-- C2 witness: the amended claim at the concrete doubly-authenticated
client. -/
theorem auth_basic_overrides_bearer_witness :
    headerGet c2Envelope.headers "Authorization" =
      some (basicAuthValue c2Client.basicAuth.username c2Client.basicAuth.password) :=
  auth_basic_overrides_bearer idCollab c2Req c2Envelope
    (by decide) (by decide) (by decide) (by decide)

/-- C6: when the transport answers with status ≥ 400, the outcome is a
`RequestError` carrying exactly that status code, URL, method and raw body;
if an error destination was set, the decode of the failure body is
attempted and the message is enriched exactly when it succeeds — on decode
failure the error is the unenriched original; no response is produced. -/
theorem http_error_failure_enrichment (collab : Collab) (r : Request) (q : HttpReq)
    (status : Nat) (respHeaders : GoMap) (body : Bytes)
    (hq : outgoingReq collab r = some q)
    (ht : collab.transport q = .ok status respHeaders (.ok body))
    (hs : 400 ≤ status)
    (hresp : r.response = none) :
    (execute collab r).1.response = none ∧
    (execute collab r).1.err = some (.reqError
      { statusCode := status, url := q.url, method := q.method, response := body,
        errMsg := if r.errorType then
            match collab.unmarshalErrDest body with
            | .ok v => "request failed with status code " ++ toString status ++ ": " ++ v
            | .error _ => "request failed with status code " ++ toString status
          else "request failed with status code " ++ toString status }) := by
  obtain ⟨he, hbuild⟩ := outgoingReq_spec collab r q hq
  unfold execute
  rw [if_neg (by simp [he])]
  simp only [hbuild, ht, if_pos hs]
  exact ⟨hresp, trivial⟩

/-- C6 witness: the concrete 404 execution with a set error destination
whose decode fails — the error surfaces unenriched. -/
theorem http_error_failure_enrichment_witness :
    (execute c6Collab c6Req).1.response = none ∧
    (execute c6Collab c6Req).1.err = some (.reqError
      { statusCode := 404, url := c6Envelope.url, method := c6Envelope.method,
        response := strToBytes "notfound",
        errMsg := if c6Req.errorType then
            match c6Collab.unmarshalErrDest (strToBytes "notfound") with
            | .ok v => "request failed with status code " ++ toString 404 ++ ": " ++ v
            | .error _ => "request failed with status code " ++ toString 404
          else "request failed with status code " ++ toString 404 }) :=
  http_error_failure_enrichment c6Collab c6Req c6Envelope 404 [] (strToBytes "notfound")
    (by decide) rfl (by decide) rfl

/-- C7: `SetBody` stores the value unserialized, and the body of the
envelope built at execution time follows the serialization policy: raw
bytes pass through, a string contributes its UTF-8 bytes, a byte stream is
drained fully, and any other value is JSON-serialized (by the collaborator)
at execution time. -/
theorem setBody_serialization (collab : Collab) (r : Request) (v : BodyVal) (q : HttpReq)
    (hq : buildHttpReq collab (Request.SetBody r v) = .ok q) :
    (Request.SetBody r v).body = some v ∧
    q.body = specBodyPolicy collab v := by
  refine ⟨rfl, ?_⟩
  obtain ⟨-, -, hbody⟩ := buildHttpReq_ok collab (Request.SetBody r v) q hq
  have hbody' : prepareBody collab (Request.SetBody r v) = .ok q.body := by
    simpa [Request.SetBody] using hbody
  clear hq hbody
  cases v with
  | bytes b => simp_all [prepareBody, Request.SetBody, specBodyPolicy]
  | str s => simp_all [prepareBody, Request.SetBody, specBodyPolicy]
  | reader c =>
    cases c <;> simp_all [prepareBody, Request.SetBody, specBodyPolicy, Except.toOption]
  | structured x =>
    cases hm : collab.marshal x <;>
      simp_all [prepareBody, Request.SetBody, specBodyPolicy, Except.toOption]

/-- C7 witness: a string body on a concrete execution. -/
theorem setBody_serialization_witness :
    (Request.SetBody (freshRequest emptyClient "u") (.str "hi")).body =
        some (.str "hi") ∧
    c7Envelope.body = specBodyPolicy idCollab (.str "hi") :=
  setBody_serialization idCollab (freshRequest emptyClient "u") (.str "hi") c7Envelope
    (by rfl)

/-- C4: for fresh pending requests, whatever the completion order of the
goroutines, `Execute` returns two sequences of length N and at every index
exactly one outcome is present — a response with no error, or an error with
no response. -/
theorem batch_execute_shape (collab : Collab) (reqs : List Request)
    (order : List (Fin reqs.length))
    (hperm : order.Perm (List.finRange reqs.length))
    (hfresh : ∀ r ∈ reqs, isFresh r) :
    (batchExecute collab reqs order).1.length = reqs.length ∧
    (batchExecute collab reqs order).2.length = reqs.length ∧
    ∀ i (h1 : i < (batchExecute collab reqs order).1.length)
      (h2 : i < (batchExecute collab reqs order).2.length),
      xorOutcome ((batchExecute collab reqs order).1.get ⟨i, h1⟩)
        ((batchExecute collab reqs order).2.get ⟨i, h2⟩) := by
  have hlen : order.length = reqs.length := by
    simpa using hperm.length_eq
  refine ⟨by simp [batchExecute, hlen], by simp [batchExecute, hlen], ?_⟩
  intro i h1 h2
  simp only [batchExecute, List.get_eq_getElem, List.getElem_map]
  have hi : i < order.length := by simpa [batchExecute] using h1
  exact result_xorOutcome collab _
    (hfresh _ (List.get_mem reqs (order.get ⟨i, hi⟩).1 (order.get ⟨i, hi⟩).2))

/-- C4 witness: the two-request batch with reversed completion order. -/
theorem batch_execute_shape_witness :
    (batchExecute c1Collab c1Reqs c1Order).1.length = c1Reqs.length ∧
    (batchExecute c1Collab c1Reqs c1Order).2.length = c1Reqs.length ∧
    ∀ i (h1 : i < (batchExecute c1Collab c1Reqs c1Order).1.length)
      (h2 : i < (batchExecute c1Collab c1Reqs c1Order).2.length),
      xorOutcome ((batchExecute c1Collab c1Reqs c1Order).1.get ⟨i, h1⟩)
        ((batchExecute c1Collab c1Reqs c1Order).2.get ⟨i, h2⟩) :=
  batch_execute_shape c1Collab c1Reqs c1Order (by decide)
    (by
      intro r hr
      simp only [c1Reqs, List.mem_cons, List.not_mem_nil, or_false] at hr
      rcases hr with h | h <;> subst h <;> exact ⟨rfl, rfl, rfl, rfl⟩)

/-- C1: evaluated at the failing input — two fresh requests where request 0
succeeds with a 200 response and request 1 fails, scheduled so that
request 1's goroutine completes first.  The mutex-guarded appends happen in
completion order, so `responses[0]` is request 1's outcome (`none`), not the
200 response of the 0th added request: the index alignment the claim states
does not hold. -/
theorem batch_results_follow_completion_order :
    (batchExecute c1Collab c1Reqs c1Order).1 =
      [none, some { statusCode := 200, headers := [], body := [] }] ∧
    (Request.Result c1Collab (c1Reqs.get ⟨0, by decide⟩)).1.1 =
      some { statusCode := 200, headers := [], body := [] } ∧
    (batchExecute c1Collab c1Reqs c1Order).1.get ⟨0, by decide⟩ ≠
      (Request.Result c1Collab (c1Reqs.get ⟨0, by decide⟩)).1.1 := by
  exact ⟨by decide, by decide, by decide⟩

/-- C5: for any sequence of `SetHeader`/`SetHeaders` calls on a fresh
request, the header mapping of the outgoing request equals the built-in
defaults overlaid by the client's global headers overlaid by the
per-request writes, with the later layer and the later same-key write
winning.  Stated for keys that are their own canonical MIME form — for
other spellings `http.Header.Set` canonicalizes, and two distinct raw keys
with one canonical form would be resolved by Go's nondeterministic map
iteration order. -/
theorem header_layering (ops : List HOp) (r0 : Request) (k : String)
    (hr : r0.headers = [])
    (hk : canonicalMIMEHeaderKey k = k)
    (hg : allCanon r0.client.globalHeaders)
    (ho : allCanon (flattenHOps ops)) :
    headerGet (addHeaders (applyHOps r0 ops)) k =
      layeredGet defaultHeaderPairs r0.client.globalHeaders (flattenHOps ops) k := by
  obtain ⟨hh, hc⟩ := applyHOps_fields r0 ops
  unfold addHeaders
  rw [hc, hh, hr]
  dsimp only
  have hdef : headerSet (headerSet [] "Content-Type" "application/json")
      "Accept" "application/json" = defaultHeaderPairs := by decide
  rw [hdef]
  rw [foldHeaderSet_canon r0.client.globalHeaders defaultHeaderPairs hg]
  have hX : allCanon (foldSet [] (flattenHOps ops)) :=
    allCanon_foldSet (flattenHOps ops) [] (fun kv hkv => absurd hkv (List.not_mem_nil kv)) ho
  rw [foldHeaderSet_canon (foldSet [] (flattenHOps ops)) _ hX]
  unfold headerGet
  rw [hk]
  have h1 : goMapGet (foldSet [] (flattenHOps ops)) k = lookupLast (flattenHOps ops) k := by
    rw [goMapGet_foldSet]
    cases lookupLast (flattenHOps ops) k <;> rfl
  have hXnodup : ((foldSet [] (flattenHOps ops)).map Prod.fst).Nodup :=
    nodup_keys_foldSet (flattenHOps ops) [] (by simp)
  have h3 : lookupLast defaultHeaderPairs k = goMapGet defaultHeaderPairs k :=
    lookupLast_eq_goMapGet defaultHeaderPairs k (by decide)
  rw [goMapGet_foldSet]
  rw [lookupLast_eq_goMapGet _ k hXnodup, h1, goMapGet_foldSet]
  unfold layeredGet
  rw [h3]

/-- C5 witness: a concrete call sequence where the per-request rewrite of
`Accept` beats both the default and an earlier per-request write, on a
client with a global header. -/
theorem header_layering_witness :
    headerGet (addHeaders (applyHOps (freshRequest c5Client "u") c5Ops)) "Accept" =
      layeredGet defaultHeaderPairs (freshRequest c5Client "u").client.globalHeaders
        (flattenHOps c5Ops) "Accept" ∧
    layeredGet defaultHeaderPairs (freshRequest c5Client "u").client.globalHeaders
        (flattenHOps c5Ops) "Accept" = some "text2" :=
  ⟨header_layering c5Ops (freshRequest c5Client "u") "Accept" rfl (by decide)
      (by decide) (by decide),
   by decide⟩

end GoClient

